import Mathlib

/-!
# Capsaicin scanner: verification of the specification against the source

A shallow embedding of the core of the `capsaicin` web content discovery
scanner (Go), together with theorems settling the frozen claims about it.

Conventions of the embedding:
* Go `int` values become `Int` (sizes and status codes are small, no overflow
  is possible in the modelled code paths).
* Go `float64` arithmetic on ratios and entropies is modelled by exact
  rational / real arithmetic; every concrete input used in a theorem is far
  from any rounding boundary.
* Go maps used as dictionaries become association lists
  (`List (String × _)`).
* The HTTP network is an oracle: a function from a request description to an
  abstract outcome.  Cancellation contexts are modelled as never firing, and
  the token-bucket wait as always succeeding, since no claim concerns them.
-/

namespace Capsaicin

/-! ## Calibration (`detection`, part_003)

`ResponseSignature`, `MatchesSignature` and `abs` are translated from the
`detection` package.  The Go code compares
`float64(abs(size-sig.Size)) / float64(sig.Size) < 0.05`; we model the
division exactly over `ℚ`.
-/

/-- `ResponseSignature` from the `detection` package: a 4-tuple summarizing a
response body. -/
structure ResponseSignature where
  statusCode : Int
  size       : Int
  wordCount  : Int
  lineCount  : Int
  deriving Repr, DecidableEq

/-- `abs` from the `detection` package (Go `int` absolute value). -/
def goAbs (n : Int) : Int :=
  if n < 0 then -n else n

/-- `MatchesSignature(statusCode, size, signatures)` from the `detection`
package: the loop over signatures, skipping zero-size signatures, with the
5% relative-size test done in exact rational arithmetic. -/
def MatchesSignature (statusCode size : Int) : List ResponseSignature → Bool
  | [] => false
  | sig :: rest =>
    if statusCode = sig.statusCode then
      if sig.size = 0 then
        MatchesSignature statusCode size rest
      else if ((goAbs (size - sig.size) : ℚ) / (sig.size : ℚ) < 5 / 100 : Prop) then
        true
      else
        MatchesSignature statusCode size rest
    else
      MatchesSignature statusCode size rest

theorem goAbs_eq_abs (n : Int) : goAbs n = |n| := by
  unfold goAbs
  rcases lt_or_le n 0 with h | h
  · simp [h, abs_of_neg h]
  · simp [not_lt.mpr h, abs_of_nonneg h]

/-- The per-signature test of `MatchesSignature`, as a predicate. -/
def sigMatches (statusCode size : Int) (sig : ResponseSignature) : Prop :=
  sig.statusCode = statusCode ∧ sig.size ≠ 0 ∧
    |(size : ℚ) - (sig.size : ℚ)| / (sig.size : ℚ) < 5 / 100

instance (statusCode size : Int) (sig : ResponseSignature) :
    Decidable (sigMatches statusCode size sig) := by
  unfold sigMatches; infer_instance

theorem matchesSignature_eq_any (statusCode size : Int)
    (signatures : List ResponseSignature) :
    MatchesSignature statusCode size signatures =
      signatures.any (fun sig => decide (sigMatches statusCode size sig)) := by
  induction signatures with
  | nil => rfl
  | cons sig rest ih =>
    have habs : ((goAbs (size - sig.size) : ℚ)) = |(size : ℚ) - (sig.size : ℚ)| := by
      rw [goAbs_eq_abs]; push_cast; ring_nf
    unfold MatchesSignature
    rw [List.any_cons, ih]
    by_cases hst : statusCode = sig.statusCode
    · subst hst
      by_cases hsz : sig.size = 0
      · have hns : ¬ sigMatches sig.statusCode size sig := fun h => h.2.1 hsz
        simp [hsz, hns]
      · by_cases hlt : (|(size : ℚ) - (sig.size : ℚ)| / (sig.size : ℚ) < 5 / 100)
        · have hs : sigMatches sig.statusCode size sig := ⟨rfl, hsz, hlt⟩
          simp [hsz, habs, hlt, hs]
        · have hns : ¬ sigMatches sig.statusCode size sig := fun h => hlt h.2.2
          simp [hsz, habs, hlt, hns]
    · have hns : ¬ sigMatches statusCode size sig := fun h => hst h.1.symm
      simp [hst, hns]

/-- **C1.** The baseline matcher returns `true` iff some signature in the list
has the same status code, a non-zero size, and `|size − sig.size| / sig.size
< 0.05`; in particular a zero-size signature never matches and the empty list
matches nothing (both are immediate consequences of the iff). -/
theorem claim_C1_matchesSignature_iff (statusCode size : Int)
    (signatures : List ResponseSignature) :
    MatchesSignature statusCode size signatures = true ↔
      ∃ sig ∈ signatures, sig.statusCode = statusCode ∧ sig.size ≠ 0 ∧
        (|(size : ℚ) - (sig.size : ℚ)| / (sig.size : ℚ) < 5 / 100) := by
  rw [matchesSignature_eq_any, List.any_eq_true]
  simp [sigMatches]

/-! ## Transport (`internal/transport/client.go`)

The circuit breaker is a pair of maps `host → failure count` and
`host → last failure time`, modelled as association lists.  Time is modelled
as an abstract `Nat` tick count (the code uses nanoseconds); `time.Since(t)`
at current instant `now` is `now - t` (Go durations compare like integers,
and a future `lastFail` gives a non-positive `Since`, which truncated `Nat`
subtraction also renders as not exceeding the timeout). -/

/-- Association list lookup (Go map read returning `(value, ok)`). -/
def alGet {α : Type} (l : List (String × α)) (k : String) : Option α :=
  (l.find? (fun p => p.1 = k)).map Prod.snd

/-- Association list lookup with Go's zero-value default (plain map read). -/
def alGetD {α : Type} (l : List (String × α)) (k : String) (d : α) : α :=
  (alGet l k).getD d

/-- Association list update (Go map write). -/
def alSet {α : Type} (l : List (String × α)) (k : String) (v : α) :
    List (String × α) :=
  (k, v) :: l.filter (fun p => ¬ p.1 = k)

/-- Association list removal (Go `delete`). -/
def alDel {α : Type} (l : List (String × α)) (k : String) :
    List (String × α) :=
  l.filter (fun p => ¬ p.1 = k)

/-- `CircuitBreaker` from `internal/transport/client.go`: per-host failure
counts and last-failure times, with a threshold and a reset timeout. -/
structure CircuitBreaker where
  failureCounts : List (String × Nat)
  lastFailure   : List (String × Nat)
  threshold     : Nat
  resetTimeout  : Nat
  deriving Repr, DecidableEq

/-- One model second, in the abstract nanosecond ticks of the model. -/
def nsPerSecond : Nat := 1000000000

/-- The circuit breaker constructed by `NewClient`: empty maps, threshold 10,
reset timeout 30 seconds. -/
def newCircuitBreaker : CircuitBreaker :=
  { failureCounts := [], lastFailure := [], threshold := 10
    resetTimeout := 30 * nsPerSecond }

/-- `(*CircuitBreaker).isOpen` from `internal/transport/client.go`.  The Go
method both answers and mutates (it clears a stale entry), so the model
returns the answer together with the successor state. -/
def isOpen (cb : CircuitBreaker) (host : String) (now : Nat) :
    Bool × CircuitBreaker :=
  match alGet cb.lastFailure host with
  | some lastFail =>
    if now - lastFail > cb.resetTimeout then
      (false, { cb with failureCounts := alDel cb.failureCounts host
                        lastFailure := alDel cb.lastFailure host })
    else
      (alGetD cb.failureCounts host 0 ≥ cb.threshold, cb)
  | none => (alGetD cb.failureCounts host 0 ≥ cb.threshold, cb)

/-- `(*CircuitBreaker).recordFailure`: increment the host's count and set its
last-failure time to `now`. -/
def recordFailure (cb : CircuitBreaker) (host : String) (now : Nat) :
    CircuitBreaker :=
  { cb with
    failureCounts := alSet cb.failureCounts host (alGetD cb.failureCounts host 0 + 1)
    lastFailure := alSet cb.lastFailure host now }

/-- `(*CircuitBreaker).recordSuccess`: delete the host's entries entirely. -/
def recordSuccess (cb : CircuitBreaker) (host : String) : CircuitBreaker :=
  { cb with failureCounts := alDel cb.failureCounts host
            lastFailure := alDel cb.lastFailure host }

theorem alGet_alSet {α : Type} (l : List (String × α)) (k : String) (v : α) :
    alGet (alSet l k v) k = some v := by
  simp [alGet, alSet, List.find?_cons]

theorem alGet_alDel {α : Type} (l : List (String × α)) (k : String) :
    alGet (alDel l k) k = none := by
  simp only [alGet, alDel, Option.map_eq_none']
  rw [List.find?_eq_none]
  intro p hp
  have := List.of_mem_filter hp
  simpa using this

/-- **C5.** The per-host circuit breaker behaves as specified: with the
constructed threshold 10 and reset timeout 30 s, `isOpen` clears the host's
entry and answers `false` when `now` minus the last failure time exceeds the
timeout, and otherwise answers whether the failure count is at least 10;
`recordFailure` increments the count and stamps `now`; `recordSuccess`
removes the host entirely, so `isOpen` then answers `false`. -/
theorem claim_C5_circuitBreaker_ops (cb : CircuitBreaker) (host : String)
    (now lastFail : Nat)
    (hthr : cb.threshold = 10)
    (hrt : cb.resetTimeout = 30 * nsPerSecond) :
    -- stale entry: cleared, not open
    ((alGet cb.lastFailure host = some lastFail ∧ now - lastFail > 30 * nsPerSecond) →
      isOpen cb host now =
        (false, { cb with failureCounts := alDel cb.failureCounts host
                          lastFailure := alDel cb.lastFailure host })) ∧
    -- fresh entry: state kept, open iff count ≥ 10
    ((alGet cb.lastFailure host = some lastFail ∧ ¬ now - lastFail > 30 * nsPerSecond) →
      isOpen cb host now = (decide (alGetD cb.failureCounts host 0 ≥ 10), cb)) ∧
    -- no entry: state kept, open iff count ≥ 10
    (alGet cb.lastFailure host = none →
      isOpen cb host now = (decide (alGetD cb.failureCounts host 0 ≥ 10), cb)) ∧
    -- recordFailure increments the count and stamps now
    (alGetD (recordFailure cb host now).failureCounts host 0 =
        alGetD cb.failureCounts host 0 + 1 ∧
      alGet (recordFailure cb host now).lastFailure host = some now) ∧
    -- recordSuccess clears the host, after which isOpen answers false
    (alGet (recordSuccess cb host).failureCounts host = none ∧
      alGet (recordSuccess cb host).lastFailure host = none ∧
      (isOpen (recordSuccess cb host) host now).1 = false) := by
  obtain ⟨fc, lf, thr, rt⟩ := cb
  simp only at hthr hrt
  subst hthr hrt
  refine ⟨?_, ?_, ?_, ?_, ?_⟩
  · rintro ⟨hlf, hstale⟩
    simp [isOpen, hlf, hstale]
  · rintro ⟨hlf, hfresh⟩
    simp [isOpen, hlf, hfresh]
  · intro hlf
    simp [isOpen, hlf]
  · constructor
    · simp [recordFailure, alGetD, alGet_alSet]
    · simp [recordFailure, alGet_alSet]
  · refine ⟨?_, ?_, ?_⟩
    · simp [recordSuccess, alGet_alDel]
    · simp [recordSuccess, alGet_alDel]
    · simp [isOpen, recordSuccess, alGet_alDel, alGetD]

/-- Witness for C5 at a concrete breaker state. -/
theorem claim_C5_circuitBreaker_ops_witness :
    isOpen { failureCounts := [("h", 3)], lastFailure := [("h", 5)],
             threshold := 10, resetTimeout := 30 * nsPerSecond } "h"
        (30 * nsPerSecond + 6) =
      (false, { failureCounts := [], lastFailure := [],
                threshold := 10, resetTimeout := 30 * nsPerSecond }) := by
  have h := claim_C5_circuitBreaker_ops
    { failureCounts := [("h", 3)], lastFailure := [("h", 5)],
      threshold := 10, resetTimeout := 30 * nsPerSecond } "h"
    (30 * nsPerSecond + 6) 5 rfl rfl
  have := h.1 ⟨by simp [alGet], by simp [nsPerSecond]⟩
  simpa [alDel, nsPerSecond] using this

/-! ### The retry loop of `(*Client).DoContext`

The HTTP exchange of attempt `n` is an oracle `server : Nat → AttemptOutcome`.
`reqError` covers both a transport error from `httpClient.Do` and a body-read
error (the two Go branches behave identically for the claims).  The
cancellation context never fires and the rate limiter always grants a token,
as announced in the header. -/

/-- Outcome of one raw HTTP attempt. -/
inductive AttemptOutcome where
  | reqError
  | success (status : Int) (body : String)
  deriving Repr, DecidableEq

/-- Final outcome of `DoContext`. -/
inductive DoOutcome where
  | err (circuitOpen : Bool)
  | ok (status : Int) (body : String)
  deriving Repr, DecidableEq

/-- The `for attempt := 0; attempt <= c.retryAttempts; attempt++` loop of
`DoContext`, recursing on the number of attempts still allowed after the
current one (`remaining = retryAttempts - attempt`, so `remaining = 0` is
Go's `attempt == c.retryAttempts`).  Returns the outcome, the breaker state,
and the number of HTTP attempts performed. -/
def doAttemptLoop (server : Nat → AttemptOutcome) (host : String)
    (now : Nat) : CircuitBreaker → (attempt : Nat) → (remaining : Nat) →
    DoOutcome × CircuitBreaker × Nat
  | cb, attempt, 0 =>
    match server attempt with
    | .reqError => (.err false, recordFailure cb host now, 1)
    | .success status body =>
      if status ≥ 500 then
        (.ok status body, recordFailure cb host now, 1)
      else
        (.ok status body, recordSuccess cb host, 1)
  | cb, attempt, remaining + 1 =>
    match server attempt with
    | .reqError =>
      let r := doAttemptLoop server host now cb (attempt + 1) remaining
      (r.1, r.2.1, r.2.2 + 1)
    | .success status body =>
      if status ≥ 500 then
        let r := doAttemptLoop server host now (recordFailure cb host now)
          (attempt + 1) remaining
        (r.1, r.2.1, r.2.2 + 1)
      else
        (.ok status body, recordSuccess cb host, 1)

/-- `(*Client).DoContext` from `internal/transport/client.go`: the circuit
breaker gate followed by the retry loop. -/
def DoContext (server : Nat → AttemptOutcome) (cb : CircuitBreaker)
    (host : String) (retryAttempts : Nat) (now : Nat) :
    DoOutcome × CircuitBreaker × Nat :=
  let gate := isOpen cb host now
  if gate.1 then
    (.err true, gate.2, 0)
  else
    doAttemptLoop server host now gate.2 0 retryAttempts

theorem recordFailure_count (cb : CircuitBreaker) (host : String) (now : Nat) :
    alGetD (recordFailure cb host now).failureCounts host 0 =
      alGetD cb.failureCounts host 0 + 1 := by
  simp [recordFailure, alGetD, alGet_alSet]

/-- Core induction for C2: against an always-5xx server, starting anywhere in
the loop, the loop performs `remaining + 1` further attempts, records one
failure per attempt, and ends with the last attempt's 5xx response as a
success value. -/
theorem doAttemptLoop_all5xx (server : Nat → AttemptOutcome) (host : String)
    (now : Nat)
    (h5 : ∀ n, ∃ st body, server n = .success st body ∧ st ≥ 500) :
    ∀ (remaining attempt : Nat) (cb : CircuitBreaker),
      ∃ st body, server (attempt + remaining) = .success st body ∧
        doAttemptLoop server host now cb attempt remaining =
          (.ok st body, (fun c => recordFailure c host now)^[remaining + 1] cb,
            remaining + 1) ∧
        alGetD ((fun c => recordFailure c host now)^[remaining + 1]
            cb).failureCounts host 0 =
          alGetD cb.failureCounts host 0 + (remaining + 1) := by
  intro remaining
  induction remaining with
  | zero =>
    intro attempt cb
    obtain ⟨st, body, hs, hge⟩ := h5 attempt
    refine ⟨st, body, by simpa using hs, ?_, ?_⟩
    · simp [doAttemptLoop, hs, hge]
    · simp [recordFailure_count]
  | succ rem ih =>
    intro attempt cb
    obtain ⟨st, body, hs, hge⟩ := h5 attempt
    obtain ⟨st', body', hs', hloop, hcount⟩ :=
      ih (attempt + 1) (recordFailure cb host now)
    refine ⟨st', body', by rw [← hs']; ring_nf, ?_, ?_⟩
    · simp only [doAttemptLoop, hs, if_pos hge, hloop,
        ← Function.iterate_succ_apply (fun c => recordFailure c host now)]
    · rw [← Function.iterate_succ_apply (fun c => recordFailure c host now)] at hcount
      rw [hcount, recordFailure_count]
      ring

/-- **C2.** Against a server that answers every attempt with a status ≥ 500,
`DoContext` with `retryAttempts = r` (and a breaker that is not open at
entry) performs exactly `r + 1` HTTP attempts, records a host failure on each
attempt (the host's failure count grows by `r + 1`), and returns the last
5xx response with its body as a success value, not an error. -/
theorem claim_C2_retry_all5xx (server : Nat → AttemptOutcome)
    (cb : CircuitBreaker) (host : String) (r : Nat) (now : Nat)
    (hopen : (isOpen cb host now).1 = false)
    (h5 : ∀ n, ∃ st body, server n = .success st body ∧ st ≥ 500) :
    ∃ st body, server r = .success st body ∧ st ≥ 500 ∧
      (DoContext server cb host r now).1 = .ok st body ∧
      (DoContext server cb host r now).2.2 = r + 1 ∧
      alGetD (DoContext server cb host r now).2.1.failureCounts host 0 =
        alGetD (isOpen cb host now).2.failureCounts host 0 + (r + 1) := by
  obtain ⟨st, body, hs, hloop, hcount⟩ :=
    doAttemptLoop_all5xx server host now h5 r 0 (isOpen cb host now).2
  rw [Nat.zero_add] at hs
  obtain ⟨st0, body0, hs0, hge0⟩ := h5 r
  rw [hs0] at hs
  have hst : st0 = st ∧ body0 = body := by
    refine ⟨?_, ?_⟩ <;> injection hs
  rw [Function.iterate_succ_apply] at hcount
  refine ⟨st, body, hs0.trans (by rw [hst.1, hst.2]), ?_, ?_, ?_, ?_⟩
  · rw [← hst.1]; exact hge0
  · simp [DoContext, hopen, hloop]
  · simp [DoContext, hopen, hloop]
  · simp [DoContext, hopen, hloop, hcount]

/-- Witness for C2: a permanently-500 server, an empty breaker, `retries = 2`:
three attempts occur, the final status is 500 (not an error), and three
failures are recorded. -/
theorem claim_C2_retry_all5xx_witness :
    ∃ st body, (fun _ : Nat => AttemptOutcome.success 500 "oops") 2 =
        .success st body ∧ st ≥ 500 ∧
      (DoContext (fun _ => .success 500 "oops") newCircuitBreaker "h" 2 0).1 =
        .ok st body ∧
      (DoContext (fun _ => .success 500 "oops") newCircuitBreaker "h" 2 0).2.2 = 3 ∧
      alGetD (DoContext (fun _ => .success 500 "oops") newCircuitBreaker "h" 2
          0).2.1.failureCounts "h" 0 =
        alGetD (isOpen newCircuitBreaker "h" 0).2.failureCounts "h" 0 + 3 :=
  claim_C2_retry_all5xx (fun _ => .success 500 "oops") newCircuitBreaker "h" 2 0
    (by simp [isOpen, newCircuitBreaker, alGet, alGetD])
    (fun n => ⟨500, "oops", rfl, by norm_num⟩)

/-! ## Go string helpers

Character-level models of the `strings` functions the scanner uses.  All the
URLs, paths and separators involved are ASCII, where Go's byte indices and
these character indices coincide. -/

/-- `String.take` on characters (kernel-reducible form). -/
def strTake (s : String) (n : Nat) : String :=
  String.mk (s.toList.take n)

/-- `String.drop` on characters (kernel-reducible form). -/
def strDrop (s : String) (n : Nat) : String :=
  String.mk (s.toList.drop n)

/-- `strings.TrimPrefix`. -/
def trimPrefixStr (s pre : String) : String :=
  if pre.toList.isPrefixOf s.toList then strDrop s pre.toList.length else s

/-- `strings.TrimSuffix`. -/
def trimSuffixStr (s suf : String) : String :=
  if suf.toList.isSuffixOf s.toList then strTake s (s.toList.length - suf.toList.length)
  else s

/-- First index of a substring in a character list (`strings.Index`). -/
def listIndexOfSub : List Char → List Char → Option Nat
  | l, pat =>
    if pat.isPrefixOf l then some 0
    else
      match l with
      | [] => none
      | _ :: t => (listIndexOfSub t pat).map (· + 1)

/-- `strings.Index` (character positions). -/
def indexOfSub (s pat : String) : Option Nat :=
  listIndexOfSub s.toList pat.toList

/-- Last index of a character in a character list (`strings.LastIndex` with a
one-character separator). -/
def listLastIdxCh : List Char → Char → Option Nat
  | [], _ => none
  | h :: t, c =>
    match listLastIdxCh t c with
    | some i => some (i + 1)
    | none => if h = c then some 0 else none

/-- `strings.LastIndex s (String.singleton c)` (character positions). -/
def lastIdxCh (s : String) (c : Char) : Option Nat :=
  listLastIdxCh s.toList c

/-- `extractBaseURL` from `internal/scanner/bypass.go`: scheme + host, found
by locating `://` and the next `/`. -/
def extractBaseURL (rawURL : String) : String :=
  match indexOfSub rawURL "://" with
  | none => rawURL
  | some idx =>
    let rest := strDrop rawURL (idx + 3)
    match lastIdxChFirst rest with
    | none => rawURL
    | some slashIdx => strTake rawURL (idx + 3 + slashIdx)
where
  /-- `strings.Index rest "/"`. -/
  lastIdxChFirst (rest : String) : Option Nat := indexOfSub rest "/"

/-- `strings.SplitN s sep n` for a one-character separator. -/
def goSplitNChar (sep : Char) : List Char → Nat → List (List Char)
  | l, 0 => [l]
  | l, n + 1 =>
    match listIndexOfSub l [sep] with
    | none => [l]
    | some i => l.take i :: goSplitNChar sep (l.drop (i + 1)) n

/-- `extractPath` from `internal/scanner/worker.go`:
`strings.SplitN(url, "/", 4)`, then `"/" + parts[3]` when four parts exist,
else `"/"`.  (`SplitN` with `n = 4` performs at most three splits.) -/
def extractPath (url : String) : String :=
  let parts := goSplitNChar '/' url.toList 3
  if parts.length ≥ 4 then "/" ++ String.mk (parts.getD 3 []) else "/"

/-- Lowercase hex digit (`fmt.Sprintf("%02x", …)` pieces). -/
def hexDigitLower (n : Nat) : Char :=
  if n < 10 then Char.ofNat ('0'.toNat + n)
  else Char.ofNat ('a'.toNat + (n - 10))

/-- Two-digit lowercase hex of a character code (`fmt.Sprintf("%%%02x", ch)`
without the percent sign). -/
def twoHexLower (n : Nat) : String :=
  String.mk [hexDigitLower (n / 16 % 16), hexDigitLower (n % 16)]

/-- `encodePathSegment` from `internal/scanner/bypass.go`: percent-encode the
ASCII letters of the last path segment. -/
def encodePathSegment (path : String) : String :=
  match lastIdxCh path '/' with
  | none => path
  | some lastSlash =>
    let pre := strTake path (lastSlash + 1)
    let segment := strDrop path (lastSlash + 1)
    if segment = "" then path
    else
      pre ++ String.mk (segment.toList.flatMap (fun ch =>
        if ('a' ≤ ch ∧ ch ≤ 'z') ∨ ('A' ≤ ch ∧ ch ≤ 'Z') then
          '%' :: (twoHexLower ch.toNat).toList
        else [ch]))

/-- `manipulateCase` from `internal/scanner/bypass.go`: toggle the case of
the first character of the last path segment. -/
def manipulateCase (path : String) : String :=
  match lastIdxCh path '/' with
  | none => path
  | some lastSlash =>
    if lastSlash + 1 ≥ path.toList.length then path
    else
      let pre := strTake path (lastSlash + 1)
      let segment := strDrop path (lastSlash + 1)
      match segment.toList with
      | [] => path
      | first :: restSeg =>
        if 'a' ≤ first ∧ first ≤ 'z' then
          pre ++ String.mk (first.toUpper :: restSeg)
        else if 'A' ≤ first ∧ first ≤ 'Z' then
          pre ++ String.mk (first.toLower :: restSeg)
        else path

/-! ## Bypass strategies (`internal/scanner/bypass.go`)

Each strategy is modelled by the request it would issue: URL, HTTP method and
its extra bypass headers.  `caseBypass` produces no request when toggling is
a no-op (its `Execute` returns `nil`), modelled as `none`. -/

/-- The request a bypass strategy issues. -/
structure BypassReq where
  url     : String
  method  : String
  headers : List (String × String)
  deriving Repr, DecidableEq

/-- A named bypass strategy together with the request it issues (or `none`
when its `Execute` bails out without a request). -/
structure BypassStrategy where
  name : String
  req  : Option BypassReq
  deriving Repr, DecidableEq

/-- A GET request for a manipulated path (`pathBypass` builder). -/
def pathBypass (name baseURL altPath : String) : BypassStrategy :=
  { name := name, req := some { url := baseURL ++ altPath, method := "GET", headers := [] } }

/-- `buildBypassStrategies` from `internal/scanner/bypass.go`: the ordered
catalogue of the twelve techniques.  `originalURL` is the URL the worker
passes to `Execute` (used by the `headers` and `method-override`
strategies); `baseURL`/`path` are the arguments of the Go function. -/
def buildBypassStrategies (originalURL baseURL path : String) :
    List BypassStrategy :=
  [ { name := "headers"
      req := some { url := originalURL, method := "GET"
                    headers := [("X-Forwarded-For", "127.0.0.1"),
                                ("X-Forwarded-Host", "127.0.0.1"),
                                ("X-Original-URL", path),
                                ("X-Rewrite-URL", path),
                                ("X-Custom-IP-Authorization", "127.0.0.1"),
                                ("Client-IP", "127.0.0.1"),
                                ("True-Client-IP", "127.0.0.1"),
                                ("X-Real-IP", "127.0.0.1"),
                                ("X-Remote-IP", "127.0.0.1"),
                                ("X-Remote-Addr", "127.0.0.1"),
                                ("X-ProxyUser-Ip", "127.0.0.1"),
                                ("X-Originating-IP", "127.0.0.1")] } },
    pathBypass "path-normalize" baseURL (path ++ "/."),
    pathBypass "path-dotslash" baseURL ("/./" ++ trimPrefixStr path "/"),
    pathBypass "path-double-slash" baseURL ("/" ++ trimPrefixStr path "/"),
    pathBypass "path-trailing-slash" baseURL (path ++ "/"),
    pathBypass "path-semicolon" baseURL (path ++ ";"),
    pathBypass "path-semicolon-slash" baseURL (path ++ "..;/"),
    pathBypass "path-null-byte" baseURL (path ++ "%00"),
    pathBypass "path-hash" baseURL (path ++ "%23"),
    { name := "url-encode"
      req := some { url := baseURL ++ encodePathSegment path, method := "GET"
                    headers := [] } },
    { name := "case-upper"
      req :=
        if manipulateCase path = path then none
        else some { url := baseURL ++ manipulateCase path, method := "GET"
                    headers := [] } },
    { name := "method-override"
      req := some { url := originalURL, method := "POST"
                    headers := [("X-HTTP-Method-Override", "GET"),
                                ("X-Method-Override", "GET"),
                                ("X-HTTP-Method", "GET"),
                                ("Content-Length", "0")] } } ]

/-- `isBypassSuccess` from `internal/scanner/bypass.go`. -/
def isBypassSuccess (statusCode : Int) : Bool :=
  statusCode = 200 || statusCode = 302 || statusCode = 301

/-- **C3 (code bug).** The `path-double-slash` strategy is a no-op: trimming
the leading `/` and prepending `/` reproduces the original path, so for the
denied URL `http://example.com/admin` the strategy requests
`http://example.com/admin` again — not `http://example.com//admin` as the
doubling described by the spec would give. -/
theorem claim_C3_doubleSlash_not_doubled :
    ((buildBypassStrategies "http://example.com/admin" "http://example.com"
        "/admin").find? (fun s => s.name = "path-double-slash")) =
      some { name := "path-double-slash"
             req := some { url := "http://example.com/admin", method := "GET"
                           headers := [] } } ∧
    "http://example.com/admin" ≠ "http://example.com//admin" := by
  constructor
  · decide
  · decide

/-! ## WAF detection from the body (`detection`, part_002)

`DetectWAFFromBody` ranges over a Go **map** literal.  Go map iteration
order is unspecified and varies between evaluations, so the model takes the
iteration order as an explicit parameter: an arbitrary permutation of the
entries of the map literal. -/

/-- `strings.ToLower` (character-wise). -/
def strToLower (s : String) : String :=
  String.mk (s.toList.map Char.toLower)

/-- `strings.Contains`. -/
def containsSub (s pat : String) : Bool :=
  (listIndexOfSub s.toList pat.toList).isSome

/-- The entries of the `bodyPatterns` map literal of `DetectWAFFromBody`, in
their textual order.  The map itself is unordered; this list fixes only the
entry set. -/
def wafBodyPatterns : List (String × String) :=
  [("Access Denied", "Generic WAF"),
   ("Request blocked", "Generic WAF"),
   ("Sorry, you have been blocked", "Cloudflare"),
   ("This request has been blocked", "Generic WAF"),
   ("Web Application Firewall", "Generic WAF"),
   ("<title>Attention Required", "Cloudflare"),
   ("<title>Just a moment", "Cloudflare"),
   ("Powered by Wordfence", "Wordfence"),
   ("ModSecurity", "ModSecurity"),
   ("<title>403 Forbidden</title>", "Generic WAF")]

/-- `DetectWAFFromBody` from the `detection` package, parameterized by the
iteration order `order` of the `bodyPatterns` map (any permutation of
`wafBodyPatterns`): lowercase the body, return the name of the first entry
whose lowercased phrase occurs, else `""`. -/
def DetectWAFFromBody (order : List (String × String)) (body : String) :
    String :=
  go order (strToLower body)
where
  go : List (String × String) → String → String
    | [], _ => ""
    | (pat, wafName) :: rest, lowerBody =>
      if containsSub lowerBody (strToLower pat) then wafName
      else go rest lowerBody

/-- **C7 counterexample.** The body-based WAF check is *not* a deterministic
function of the body: two iteration orders of the `bodyPatterns` map — both
permutations of the same entry set — give different names on a body that
contains both a Generic-WAF phrase and a Cloudflare phrase. -/
theorem claim_C7_counterexample :
    ¬ (∀ (order : List (String × String)) (body : String),
        order.Perm wafBodyPatterns →
          DetectWAFFromBody order body =
            DetectWAFFromBody wafBodyPatterns body) := by
  intro h
  have hperm :
      (("Access Denied", "Generic WAF") ::
        ("Sorry, you have been blocked", "Cloudflare") ::
        ("Request blocked", "Generic WAF") ::
        [("This request has been blocked", "Generic WAF"),
         ("Web Application Firewall", "Generic WAF"),
         ("<title>Attention Required", "Cloudflare"),
         ("<title>Just a moment", "Cloudflare"),
         ("Powered by Wordfence", "Wordfence"),
         ("ModSecurity", "ModSecurity"),
         ("<title>403 Forbidden</title>", "Generic WAF")]).Perm
        wafBodyPatterns :=
    List.Perm.cons _ (List.Perm.swap _ _ _)
  have heq := h _ "Request blocked ... Sorry, you have been blocked" hperm
  rw [show DetectWAFFromBody
      (("Access Denied", "Generic WAF") ::
        ("Sorry, you have been blocked", "Cloudflare") ::
        ("Request blocked", "Generic WAF") ::
        [("This request has been blocked", "Generic WAF"),
         ("Web Application Firewall", "Generic WAF"),
         ("<title>Attention Required", "Cloudflare"),
         ("<title>Just a moment", "Cloudflare"),
         ("Powered by Wordfence", "Wordfence"),
         ("ModSecurity", "ModSecurity"),
         ("<title>403 Forbidden</title>", "Generic WAF")])
      "Request blocked ... Sorry, you have been blocked" = "Cloudflare" from by decide,
    show DetectWAFFromBody wafBodyPatterns
      "Request blocked ... Sorry, you have been blocked" = "Generic WAF" from by decide]
    at heq
  exact absurd heq (by decide)

/-- **C7 (amended).** For each fixed iteration order the body check is
deterministic and returns the name paired with the first entry, in that
order, whose phrase occurs case-insensitively in the body (or `""`).  The
order itself is a Go map's and is not fixed by the code. -/
theorem claim_C7_firstMatch_in_order (order : List (String × String))
    (body : String) :
    DetectWAFFromBody order body =
      ((order.find? (fun p => containsSub (strToLower body) (strToLower p.1))).map
        Prod.snd).getD "" := by
  unfold DetectWAFFromBody
  induction order with
  | nil => rfl
  | cons p rest ih =>
    obtain ⟨pat, wafName⟩ := p
    unfold DetectWAFFromBody.go
    by_cases hc : containsSub (strToLower body) (strToLower pat) = true
    · rw [if_pos hc, List.find?_cons_of_pos _ (by simpa using hc)]
      rfl
    · rw [if_neg hc, List.find?_cons_of_neg _ (by simpa using hc)]
      exact ih

/-! ## Credential value extraction and entropy gate
(`internal/detection/secrets.go`)

`DetectSecretsDetailed` gates entropy-bearing patterns on
`ShannonEntropy(extractValue(match)) < pattern.MinEntropy`.  `extractValue`
tries the separators `=`, `:`, `"`, `'` **in that order**, taking for each
the substring after its *last* occurrence. -/

/-- The double-quote character. -/
def quoteChar : Char := Char.ofNat 34

/-- The single-quote character. -/
def apostChar : Char := Char.ofNat 39

/-- `strings.TrimSpace`. -/
def trimSpaceStr (s : String) : String :=
  String.mk
    (((s.toList.dropWhile Char.isWhitespace).reverse.dropWhile
      Char.isWhitespace).reverse)

/-- `strings.Trim s cutset` for a set of characters. -/
def trimCutset (s : String) (cutset : List Char) : String :=
  String.mk
    (((s.toList.dropWhile (· ∈ cutset)).reverse.dropWhile (· ∈ cutset)).reverse)

/-- The separator list of `extractValue`, in its source order. -/
def extractValueSeps : List Char := ['=', ':', quoteChar, apostChar]

/-- The per-separator candidate of `extractValue`: the substring after the
separator's last occurrence, trimmed of whitespace and of `"`, `'` and
space, provided it is non-empty. -/
def sepCandidate (m : String) (sep : Char) : Option String :=
  match lastIdxCh m sep with
  | none => none
  | some idx =>
    let val := trimCutset (trimSpaceStr (strDrop m (idx + 1)))
      [quoteChar, apostChar, ' ']
    if val.toList.length > 0 then some val else none

/-- `extractValue` from `internal/detection/secrets.go`: the loop over the
separators in source order, returning the first non-empty candidate, else
the whole match. -/
def extractValue (m : String) : String :=
  go extractValueSeps
where
  go : List Char → String
    | [] => m
    | sep :: rest =>
      match sepCandidate m sep with
      | some val => val
      | none => go rest

/-- Modelled from the claim's words: the value is the substring after the
**last occurrence among all the separators** in the match (trimmed the same
way), falling back to the whole match when that yields nothing. -/
def specLastSepValue (m : String) : String :=
  match (extractValueSeps.filterMap (lastIdxCh m)).max? with
  | none => m
  | some idx =>
    let val := trimCutset (trimSpaceStr (strDrop m (idx + 1)))
      [quoteChar, apostChar, ' ']
    if val.toList.length > 0 then val else m

/-- `ShannonEntropy` from `internal/detection/secrets.go`: base-2 entropy of
the character-frequency distribution (over runes), exactly over `ℝ`. -/
noncomputable def ShannonEntropy (s : String) : ℝ :=
  if s.toList.length = 0 then 0
  else
    ((s.toList.dedup).map (fun c =>
      let p : ℝ := (s.toList.count c : ℝ) / (s.toList.length : ℝ)
      if 0 < p then -(p * Real.logb 2 p) else 0)).sum

/-- The entropy gate of `DetectSecretsDetailed` (lines 155–159): a match of a
pattern with minimum entropy `minEntropy` is skipped iff the gate holds. -/
def entropyGateSkips (minEntropy : ℚ) (m : String) : Prop :=
  0 < minEntropy ∧ ShannonEntropy (extractValue m) < (minEntropy : ℝ)

/-- **C6 counterexample.** The gated value is *not* the substring after the
last occurrence among the separators: on the Generic-Password match
`pwd=x:ABCDEFGH` the code extracts `x:ABCDEFGH` (the `=` separator is tried
first), while the last separator occurrence is the `:`, after which the
claim's value would be `ABCDEFGH`. -/
theorem claim_C6_counterexample :
    ¬ (∀ m, extractValue m = specLastSepValue m) := by
  intro h
  have hm := h "pwd=x:ABCDEFGH"
  rw [show extractValue "pwd=x:ABCDEFGH" = "x:ABCDEFGH" from by decide,
    show specLastSepValue "pwd=x:ABCDEFGH" = "ABCDEFGH" from by decide] at hm
  exact absurd hm (by decide)

/-- Modelled from the amended claim: the value is the candidate of the
*first* separator, in the fixed order `=`, `:`, `"`, `'`, that occurs in the
match and yields a non-empty trimmed value; fallback to the whole match. -/
def orderedSepSpecValue (m : String) : String :=
  ((extractValueSeps.filterMap (sepCandidate m)).head?).getD m

/-- **C6 (amended).** The value whose entropy is gated is the substring
after the last occurrence of the first separator, in the fixed order `=`,
`:`, `"`, `'`, that yields a non-empty trimmed value (fallback: the whole
match); the match is skipped exactly when a minimum entropy is set and that
value's base-2 Shannon entropy over rune frequencies is below it. -/
theorem claim_C6_value_and_gate :
    (∀ m, extractValue m = orderedSepSpecValue m) ∧
    (∀ (minEntropy : ℚ) (m : String),
      entropyGateSkips minEntropy m ↔
        0 < minEntropy ∧ ShannonEntropy (extractValue m) < (minEntropy : ℝ)) := by
  constructor
  · intro m
    unfold extractValue orderedSepSpecValue
    generalize extractValueSeps = seps
    induction seps with
    | nil => rfl
    | cons sep rest ih =>
      unfold extractValue.go
      rw [List.filterMap_cons]
      cases hc : sepCandidate m sep with
      | none => simpa [hc] using ih
      | some val => simp [hc]
  · intro minEntropy m
    exact Iff.rfl

/-! ## SHA-256 (Go standard library `crypto/sha256`)

`SaveJSONReport` hashes the concatenated target strings.  The primitive is
Go's standard library; it is embedded here bit-exactly over `Nat` with
explicit `% 2^32` reductions, so that report contents are fully concrete. -/

/-- 32-bit right rotation. -/
def rotr32 (x n : Nat) : Nat :=
  ((x >>> n) ||| (x <<< (32 - n))) % 4294967296

/-- 32-bit addition. -/
def add32 (a b : Nat) : Nat := (a + b) % 4294967296

/-- SHA-256 round constants. -/
def sha256K : List Nat :=
  [1116352408, 1899447441, 3049323471, 3921009573,
   961987163, 1508970993, 2453635748, 2870763221,
   3624381080, 310598401, 607225278, 1426881987,
   1925078388, 2162078206, 2614888103, 3248222580,
   3835390401, 4022224774, 264347078, 604807628,
   770255983, 1249150122, 1555081692, 1996064986,
   2554220882, 2821834349, 2952996808, 3210313671,
   3336571891, 3584528711, 113926993, 338241895,
   666307205, 773529912, 1294757372, 1396182291,
   1695183700, 1986661051, 2177026350, 2456956037,
   2730485921, 2820302411, 3259730800, 3345764771,
   3516065817, 3600352804, 4094571909, 275423344,
   430227734, 506948616, 659060556, 883997877,
   958139571, 1322822218, 1537002063, 1747873779,
   1955562222, 2024104815, 2227730452, 2361852424,
   2428436474, 2756734187, 3204031479, 3329325298]

/-- SHA-256 initial hash value. -/
def sha256H0 : List Nat :=
  [1779033703, 3144134277, 1013904242, 2773480762,
   1359893119, 2600822924, 528734635, 1541459225]

/-- Big-endian bytes of a number. -/
def beBytes (k n : Nat) : List Nat :=
  (List.range k).map (fun i => (n >>> (8 * (k - 1 - i))) &&& 255)

/-- SHA-256 message padding. -/
def sha256Pad (msg : List Nat) : List Nat :=
  msg ++ 128 :: List.replicate ((64 + 56 - ((msg.length + 1) % 64)) % 64) 0
    ++ beBytes 8 (8 * msg.length)

/-- Big-endian 32-bit words of a byte list. -/
def beWords : List Nat → List Nat
  | b0 :: b1 :: b2 :: b3 :: rest =>
    (b0 <<< 24 + b1 <<< 16 + b2 <<< 8 + b3) :: beWords rest
  | _ => []

/-- Message-schedule extension: append `fuel` further words. -/
def sha256Extend : Nat → List Nat → List Nat
  | 0, w => w
  | fuel + 1, w =>
    let n := w.length
    let s0 := rotr32 (w.getD (n - 15) 0) 7 ^^^ rotr32 (w.getD (n - 15) 0) 18 ^^^
      (w.getD (n - 15) 0 >>> 3)
    let s1 := rotr32 (w.getD (n - 2) 0) 17 ^^^ rotr32 (w.getD (n - 2) 0) 19 ^^^
      (w.getD (n - 2) 0 >>> 10)
    sha256Extend fuel
      (w ++ [(w.getD (n - 16) 0 + s0 + w.getD (n - 7) 0 + s1) % 4294967296])

/-- One round of the SHA-256 compression function. -/
def sha256Round (st : List Nat) (kw : Nat × Nat) : List Nat :=
  match st with
  | [a, b, c, d, e, f, g, h] =>
    let S1 := rotr32 e 6 ^^^ rotr32 e 11 ^^^ rotr32 e 25
    let ch := (e &&& f) ^^^ ((e ^^^ 4294967295) &&& g)
    let t1 := (h + S1 + ch + kw.1 + kw.2) % 4294967296
    let S0 := rotr32 a 2 ^^^ rotr32 a 13 ^^^ rotr32 a 22
    let maj := (a &&& b) ^^^ (a &&& c) ^^^ (b &&& c)
    let t2 := (S0 + maj) % 4294967296
    [add32 t1 t2, a, b, c, add32 d t1, e, f, g]
  | st => st

/-- Process one 64-byte block. -/
def sha256Block (H : List Nat) (block : List Nat) : List Nat :=
  let w := sha256Extend 48 (beWords block)
  let st := (sha256K.zip w).foldl sha256Round H
  List.zipWith add32 H st

/-- Split into 64-byte blocks (fuel-based, fuel = list length suffices). -/
def chunks64 : Nat → List Nat → List (List Nat)
  | _, [] => []
  | 0, _ => []
  | fuel + 1, l => l.take 64 :: chunks64 fuel (l.drop 64)

/-- SHA-256 of a byte list: the 32-byte digest. -/
def sha256 (msg : List Nat) : List Nat :=
  let padded := sha256Pad msg
  ((chunks64 padded.length padded).foldl sha256Block sha256H0).flatMap
    (beBytes 4)

/-- The bytes of an ASCII string. -/
def strBytes (s : String) : List Nat :=
  s.toList.map Char.toNat

/-- Lowercase hex of a byte list (`fmt.Sprintf("%x", …)`). -/
def hexOfBytes (bytes : List Nat) : String :=
  String.mk (bytes.flatMap (fun b => [hexDigitLower (b / 16), hexDigitLower (b % 16)]))

/-- `hashStrings` from the `reporting` package: first 16 hex characters of
the SHA-256 of the concatenated strings. -/
def hashStrings (ss : List String) : String :=
  strTake (hexOfBytes (sha256 (strBytes (String.join ss)))) 16

/-! ## Scanner results and the JSON report (`internal/scanner/task.go`,
`reporting`, part_004)

`Result` is the emitted finding; the JSON report serialization mirrors
`encoding/json` with `SetIndent("", "  ")` (struct-order fields, `omitempty`
dropping empty strings and slices, a trailing newline from `Encode`). -/

/-- `Result` from `internal/scanner/task.go`, fields in source order. -/
structure Result where
  url          : String
  statusCode   : Int
  size         : Int
  wordCount    : Int
  lineCount    : Int
  critical     : Bool
  severity     : String
  confidence   : String
  tags         : List String
  method       : String
  timestamp    : String
  server       : String
  poweredBy    : String
  userAgent    : String
  secretFound  : Bool
  secretTypes  : List String
  wafDetected  : String
  technologies : List String
  deriving Repr, DecidableEq

/-- A `Result` with every field zeroed (Go zero value). -/
def emptyResult : Result :=
  { url := "", statusCode := 0, size := 0, wordCount := 0, lineCount := 0
    critical := false, severity := "", confidence := "", tags := []
    method := "", timestamp := "", server := "", poweredBy := ""
    userAgent := "", secretFound := false, secretTypes := []
    wafDetected := "", technologies := [] }

/-- The `less` comparator of `SaveJSONReport`'s `sort.Slice`: URL ascending,
then status code ascending. -/
def resultLess (a b : Result) : Bool :=
  if a.url ≠ b.url then a.url < b.url else a.statusCode < b.statusCode

/-- The sort of `SaveJSONReport` (a deterministic comparison sort over the
`resultLess` order; Go's `sort.Slice` is a different but equally
deterministic comparison sort over the same order). -/
def SortResults (results : List Result) : List Result :=
  results.mergeSort (fun a b => ! resultLess b a)

/-- `ScanMetadata` from the `reporting` package. -/
structure ScanMetadata where
  startTime    : String
  endTime      : String
  targetCount  : Int
  targetsHash  : String
  totalResults : Int
  version      : String
  deriving Repr, DecidableEq

/-- `ScanReport` from the `reporting` package. -/
structure ScanReport where
  schemaVersion : String
  runID         : String
  metadata      : ScanMetadata
  results       : List Result
  deriving Repr, DecidableEq

/-- `encoding/json` string escaping (with Go's default HTML escaping). -/
def jsonEscape (s : String) : String :=
  String.mk (s.toList.flatMap (fun c =>
    if c = quoteChar then ['\\', quoteChar]
    else if c = '\\' then ['\\', '\\']
    else if c = '\n' then ['\\', 'n']
    else if c = '\r' then ['\\', 'r']
    else if c = '\t' then ['\\', 't']
    else if c = '<' then ['\\', 'u', '0', '0', '3', 'c']
    else if c = '>' then ['\\', 'u', '0', '0', '3', 'e']
    else if c = '&' then ['\\', 'u', '0', '0', '2', '6']
    else if c.toNat < 32 then
      ['\\', 'u', '0', '0', hexDigitLower (c.toNat / 16), hexDigitLower (c.toNat % 16)]
    else [c]))

/-- A JSON string literal. -/
def jsonQuote (s : String) : String :=
  String.mk (quoteChar :: (jsonEscape s).toList ++ [quoteChar])

/-- Decimal rendering of an integer. -/
def encInt (i : Int) : String :=
  if i < 0 then "-" ++ natDecimal i.natAbs else natDecimal i.natAbs
where
  natDigits : Nat → Nat → List Char
    | _, 0 => []
    | n, fuel + 1 =>
      if n = 0 then []
      else natDigits (n / 10) fuel ++ [hexDigitLower (n % 10)]
  natDecimal (n : Nat) : String :=
    if n = 0 then "0" else String.mk (natDigits n (n + 1))

/-- JSON boolean. -/
def encBool (b : Bool) : String := if b then "true" else "false"

/-- Join with a separator. -/
def joinSep (sep : String) : List String → String
  | [] => ""
  | [x] => x
  | x :: rest => x ++ sep ++ joinSep sep rest

/-- An indented JSON array of strings (`omitempty` callers skip `[]`). -/
def encStrArr (ind : String) (l : List String) : String :=
  if l.isEmpty then "[]"
  else "[\n" ++ joinSep ",\n" (l.map (fun x => ind ++ "  " ++ jsonQuote x)) ++
    "\n" ++ ind ++ "]"

/-- One `Result` as an indented JSON object whose opening brace sits on the
caller's line; fields in struct order with the source's `omitempty` tags. -/
def encodeResult (ind : String) (r : Result) : String :=
  "\x7b\n" ++
    joinSep ",\n" (List.filterMap id
      [some (fld "url" (jsonQuote r.url)),
       some (fld "status_code" (encInt r.statusCode)),
       some (fld "size" (encInt r.size)),
       some (fld "word_count" (encInt r.wordCount)),
       some (fld "line_count" (encInt r.lineCount)),
       some (fld "critical" (encBool r.critical)),
       some (fld "severity" (jsonQuote r.severity)),
       some (fld "confidence" (jsonQuote r.confidence)),
       if r.tags.isEmpty then none
       else some (fld "tags" (encStrArr (ind ++ "  ") r.tags)),
       some (fld "method" (jsonQuote r.method)),
       some (fld "timestamp" (jsonQuote r.timestamp)),
       if r.server = "" then none else some (fld "server" (jsonQuote r.server)),
       if r.poweredBy = "" then none
       else some (fld "powered_by" (jsonQuote r.poweredBy)),
       some (fld "user_agent" (jsonQuote r.userAgent)),
       some (fld "secret_found" (encBool r.secretFound)),
       if r.secretTypes.isEmpty then none
       else some (fld "secret_types" (encStrArr (ind ++ "  ") r.secretTypes)),
       if r.wafDetected = "" then none
       else some (fld "waf_detected" (jsonQuote r.wafDetected)),
       if r.technologies.isEmpty then none
       else some (fld "technologies" (encStrArr (ind ++ "  ") r.technologies))]) ++
    "\n" ++ ind ++ "\x7d"
where
  fld (key value : String) : String :=
    ind ++ "  " ++ jsonQuote key ++ ": " ++ value

/-- The metadata object. -/
def encodeMetadata (ind : String) (m : ScanMetadata) : String :=
  "\x7b\n" ++
    joinSep ",\n"
      [fld "start_time" (jsonQuote m.startTime),
       fld "end_time" (jsonQuote m.endTime),
       fld "target_count" (encInt m.targetCount),
       fld "targets_hash" (jsonQuote m.targetsHash),
       fld "total_results" (encInt m.totalResults),
       fld "version" (jsonQuote m.version)] ++
    "\n" ++ ind ++ "\x7d"
where
  fld (key value : String) : String :=
    ind ++ "  " ++ jsonQuote key ++ ": " ++ value

/-- The results array of the report. -/
def encodeResultsArr (ind : String) (results : List Result) : String :=
  if results.isEmpty then "[]"
  else "[\n" ++
    joinSep ",\n" (results.map (fun r => ind ++ "  " ++ encodeResult (ind ++ "  ") r)) ++
    "\n" ++ ind ++ "]"

/-- The whole report document, including `Encode`'s trailing newline. -/
def encodeReportJSON (report : ScanReport) : String :=
  "\x7b\n" ++
    joinSep ",\n"
      ["  " ++ jsonQuote "schema_version" ++ ": " ++ jsonQuote report.schemaVersion,
       "  " ++ jsonQuote "run_id" ++ ": " ++ jsonQuote report.runID,
       "  " ++ jsonQuote "metadata" ++ ": " ++ encodeMetadata "  " report.metadata,
       "  " ++ jsonQuote "results" ++ ": " ++ encodeResultsArr "  " report.results] ++
    "\n\x7d\n"

/-- `SaveJSONReport` from the `reporting` package as the byte content of the
file it writes: sort a copy of the results, hash the targets, stamp the
current clock readings (`time.Now()` twice, passed here as the two
`timeNow` arguments), and JSON-encode the report. -/
def SaveJSONReportContent (results : List Result) (targets : List String)
    (runID timeNow1 timeNow2 : String) : String :=
  let sorted := SortResults results
  encodeReportJSON
    { schemaVersion := "3.0"
      runID := runID
      metadata :=
        { startTime := timeNow1
          endTime := timeNow2
          targetCount := (targets.length : Int)
          targetsHash := hashStrings targets
          totalResults := (sorted.length : Int)
          version := "3.0.0" }
      results := sorted }

/-- `! resultLess b a` says exactly: URL ascending, then status ascending. -/
theorem not_resultLess_iff (a b : Result) :
    (! resultLess b a) = true ↔
      (a.url < b.url ∨ (a.url = b.url ∧ a.statusCode ≤ b.statusCode)) := by
  unfold resultLess
  by_cases h : b.url = a.url
  · rw [if_neg (not_not_intro h)]
    simp only [Bool.not_eq_true', decide_eq_false_iff_not, not_lt]
    constructor
    · intro hle; exact Or.inr ⟨h.symm, hle⟩
    · rintro (hlt | ⟨_, hle⟩)
      · exact absurd h.symm (ne_of_lt hlt)
      · exact hle
  · rw [if_pos h]
    simp only [Bool.not_eq_true', decide_eq_false_iff_not, not_lt]
    constructor
    · intro hle
      exact Or.inl (lt_of_le_of_ne hle (fun hq => h hq.symm))
    · rintro (hlt | ⟨heq, _⟩)
      · exact le_of_lt hlt
      · exact absurd heq.symm h

theorem resultLe_trans (a b c : Result)
    (hab : (! resultLess b a) = true) (hbc : (! resultLess c b) = true) :
    (! resultLess c a) = true := by
  rw [not_resultLess_iff] at hab hbc ⊢
  rcases hab with h1 | ⟨e1, s1⟩ <;> rcases hbc with h2 | ⟨e2, s2⟩
  · exact Or.inl (lt_trans h1 h2)
  · exact Or.inl (e2 ▸ h1)
  · exact Or.inl (e1 ▸ h2)
  · exact Or.inr ⟨e1.trans e2, le_trans s1 s2⟩

theorem resultLe_total (a b : Result) :
    ((! resultLess b a) || (! resultLess a b)) = true := by
  rcases lt_trichotomy a.url b.url with h | h | h
  · exact Bool.or_eq_true_iff.mpr
      (Or.inl ((not_resultLess_iff a b).mpr (Or.inl h)))
  · rcases le_total a.statusCode b.statusCode with hs | hs
    · exact Bool.or_eq_true_iff.mpr
        (Or.inl ((not_resultLess_iff a b).mpr (Or.inr ⟨h, hs⟩)))
    · exact Bool.or_eq_true_iff.mpr
        (Or.inr ((not_resultLess_iff b a).mpr (Or.inr ⟨h.symm, hs⟩)))
  · exact Bool.or_eq_true_iff.mpr
      (Or.inr ((not_resultLess_iff b a).mpr (Or.inl h)))

/-- **C8 counterexample.** Identical `(results, targets, run_id)` inputs do
*not* force byte-identical report files: `SaveJSONReport` stamps
`time.Now()` into `metadata.start_time`/`end_time`, so two invocations whose
clock readings differ by one second produce different bytes. -/
theorem claim_C8_counterexample :
    SaveJSONReportContent [] ["http://example.com"] "abcdef123456"
        "2024-01-01T00:00:00Z" "2024-01-01T00:00:00Z" ≠
      SaveJSONReportContent [] ["http://example.com"] "abcdef123456"
        "2024-01-01T00:00:01Z" "2024-01-01T00:00:01Z" := by
  decide

/-- **C8 (amended).** For identical `(results, targets, run_id)` inputs
*and identical clock readings*, `SaveJSONReport` produces byte-identical
files; the results array of the report is sorted by URL ascending, then
status code ascending. -/
theorem claim_C8_deterministic_and_sorted :
    (∀ (results₁ results₂ : List Result) (targets₁ targets₂ : List String)
        (runID₁ runID₂ t1 t2 : String),
      results₁ = results₂ → targets₁ = targets₂ → runID₁ = runID₂ →
        SaveJSONReportContent results₁ targets₁ runID₁ t1 t2 =
          SaveJSONReportContent results₂ targets₂ runID₂ t1 t2) ∧
    (∀ results : List Result,
      (SortResults results).Pairwise (fun a b =>
        a.url < b.url ∨ (a.url = b.url ∧ a.statusCode ≤ b.statusCode))) := by
  constructor
  · intro r1 r2 tg1 tg2 id1 id2 t1 t2 hr htg hid
    rw [hr, htg, hid]
  · intro results
    have hp := @List.sorted_mergeSort Result (fun a b => ! resultLess b a)
      resultLe_trans resultLe_total results
    exact hp.imp (fun h => (not_resultLess_iff _ _).mp h)

/-- Witness for C8 (amended): concrete identical inputs yield equal bytes,
and the sorted output of a two-element list is pairwise ordered. -/
theorem claim_C8_deterministic_and_sorted_witness :
    SaveJSONReportContent [] ["t"] "r" "T1" "T2" =
        SaveJSONReportContent [] ["t"] "r" "T1" "T2" ∧
      (SortResults [emptyResult]).Pairwise (fun a b =>
        a.url < b.url ∨ (a.url = b.url ∧ a.statusCode ≤ b.statusCode)) :=
  ⟨claim_C8_deterministic_and_sorted.1 [] [] ["t"] ["t"] "r" "r" "T1" "T2"
      rfl rfl rfl,
    claim_C8_deterministic_and_sorted.2 [emptyResult]⟩

/-! ## The worker loop (`internal/scanner/worker.go`)

A task's processing is a pure function of: the configuration, the network
oracle (one abstract HTTP exchange per request description), the detector
pack (the three detectors and `AssignSeverityAndConfidence` only decorate
result fields and are abstracted as parameters — no claim depends on their
internals), the calibration signatures of the task's target, and the task.
Responses carry the header-derived strings the worker reads. -/

/-- An HTTP response as the worker sees it: status, body, and the
header-derived strings (`Server`, `X-Powered-By`, and the name `DetectWAF`
computes from the headers). -/
structure HttpResp where
  status    : Int
  body      : String
  server    : String
  poweredBy : String
  wafName   : String
  deriving Repr, DecidableEq

/-- The network oracle: `none` is a transport error. -/
def Network : Type := BypassReq → Option HttpResp

/-- The detector pack and severity assignment, abstracted. -/
structure Detectors where
  detectSecrets   : String → List String
  detectTechNames : HttpResp → String → List String
  assignSC        : Result → Result

/-- A detector pack that detects nothing and assigns nothing. -/
def trivialDetectors : Detectors :=
  { detectSecrets := fun _ => [], detectTechNames := fun _ _ => []
    assignSC := id }

/-- `len(strings.Fields(s))`: the number of maximal non-whitespace runs. -/
def wordCountOf (s : String) : Int :=
  (((s.toList.zip (' ' :: s.toList)).filter
    (fun p => ¬ p.1.isWhitespace ∧ p.2.isWhitespace)).length : Int)

/-- `strings.Count(s, "\n") + 1`. -/
def lineCountOf (s : String) : Int :=
  ((s.toList.count '\n' : Nat) : Int) + 1

/-- `strings.HasSuffix`. -/
def strHasSuf (s suf : String) : Bool :=
  suf.toList.isSuffixOf s.toList

/-- Modelled from the spec: the five-argument `MatchesSignature` the worker
calls (`detection.MatchesSignature(status, size, wordCount, lineCount,
sigs)`) is not among the source files — only its three-argument variant is
(part_003).  §4.2 of the spec defines the baseline match on status and size
alone, so the extra word/line counts are not used. -/
def matchesSignatureWLC (statusCode size _wordCount _lineCount : Int)
    (signatures : List ResponseSignature) : Bool :=
  MatchesSignature statusCode size signatures

/-- Whether a response matches the calibration entry, as the worker would
test the `Result` built from it. -/
def respMatches (signatures : List ResponseSignature) (resp : HttpResp) :
    Bool :=
  matchesSignatureWLC resp.status ((resp.body.toList.length : Nat) : Int)
    (wordCountOf resp.body) (lineCountOf resp.body) signatures

/-- `makeRequest` from `internal/scanner/worker.go`: issue the request and
assemble the tentative `Result` (the timestamp is abstracted to `""`). -/
def makeRequest (net : Network) (url method userAgent : String) :
    Option (Result × String × HttpResp) :=
  match net { url := url, method := method, headers := [] } with
  | none => none
  | some resp =>
    some ({ emptyResult with
              url := url
              statusCode := resp.status
              size := ((resp.body.toList.length : Nat) : Int)
              wordCount := wordCountOf resp.body
              lineCount := lineCountOf resp.body
              method := method
              timestamp := ""
              server := resp.server
              poweredBy := resp.poweredBy
              userAgent := userAgent
              wafDetected := resp.wafName },
          resp.body, resp)

/-- `isInteresting` from `internal/scanner/worker.go`. -/
def isInteresting (result : Result) : Bool :=
  if 200 ≤ result.statusCode ∧ result.statusCode < 400 then true
  else if result.statusCode = 401 ∨ result.statusCode = 403 then true
  else false

/-- `isDirectory` from `internal/scanner/worker.go`. -/
def isDirectory (result : Result) : Bool :=
  if result.statusCode = 301 ∨ result.statusCode = 302 ∨
      result.statusCode = 403 then true
  else if strHasSuf result.url "/" then true
  else false

/-- `executeBypassRequest` from `internal/scanner/bypass.go`. -/
def executeBypassRequest (net : Network) (req : BypassReq) :
    Option (Result × String × HttpResp) :=
  match net req with
  | none => none
  | some resp =>
    some ({ emptyResult with
              url := req.url
              statusCode := resp.status
              size := ((resp.body.toList.length : Nat) : Int)
              wordCount := wordCountOf resp.body
              lineCount := lineCountOf resp.body
              method := req.method
              timestamp := ""
              server := resp.server
              poweredBy := resp.poweredBy
              wafDetected := resp.wafName },
          resp.body, resp)

/-- `attemptBypassStrategies` from `internal/scanner/bypass.go`: run the
catalogue in order; the first response with a bypass-success status yields
the tagged result. -/
def attemptBypassStrategies (net : Network) (originalURL : String) :
    Option (Result × String × HttpResp) :=
  go (buildBypassStrategies originalURL (extractBaseURL originalURL)
    (extractPath originalURL))
where
  go : List BypassStrategy → Option (Result × String × HttpResp)
    | [] => none
    | strat :: rest =>
      match strat.req with
      | none => go rest
      | some req =>
        match executeBypassRequest net req with
        | none => go rest
        | some (result, body, resp) =>
          if isBypassSuccess result.statusCode then
            some ({ result with
                      url := originalURL ++ " [BYPASS:" ++ strat.name ++ "]"
                      method := "GET+BYPASS" },
                  body, resp)
          else go rest

/-- Worker configuration (the fields the loop reads). -/
structure Config where
  safeMode : Bool
  maxDepth : Nat
  deriving Repr, DecidableEq

/-- `Task` from `internal/scanner/task.go`. -/
structure Task where
  targetURL : String
  path      : String
  depth     : Nat
  deriving Repr, DecidableEq

/-- Which code site emitted a `Result`. -/
inductive EmissionKind where
  | primary
  | methodFuzz
  | bypass
  deriving Repr, DecidableEq

/-- An emitted `Result` together with the HTTP response it was built from. -/
structure Emission where
  kind   : EmissionKind
  result : Result
  resp   : HttpResp
  deriving Repr, DecidableEq

/-- The stats increments of one task (processed, found, errors, secrets). -/
structure StatsDelta where
  processed : Nat
  found     : Nat
  errors    : Nat
  secrets   : Nat
  deriving Repr, DecidableEq

/-- The 405 method-fuzzing loop (worker.go lines 96–125): try `POST`, `PUT`,
`DELETE`, `PATCH`; the first response with status 200/201/204 is emitted as
a critical `Result` (with secret and technology detection on its body) and
increments `found`; returns the emission and its secrets increment. -/
def methodFuzzStep (net : Network) (det : Detectors)
    (url userAgent : String) : Option (Emission × Nat) :=
  go ["POST", "PUT", "DELETE", "PATCH"]
where
  go : List String → Option (Emission × Nat)
    | [] => none
    | method :: rest =>
      match makeRequest net url method userAgent with
      | none => go rest
      | some (mres, mbody, mresp) =>
        if mres.statusCode = 200 ∨ mres.statusCode = 201 ∨
            mres.statusCode = 204 then
          let r1 := { mres with method := method, critical := true }
          let secrets := det.detectSecrets mbody
          let r2 :=
            if secrets ≠ [] then
              { r1 with secretFound := true, secretTypes := secrets }
            else r1
          let techs := det.detectTechNames mresp mbody
          let r3 := if techs ≠ [] then { r2 with technologies := techs } else r2
          some (⟨.methodFuzz, det.assignSC r3, mresp⟩,
            if secrets ≠ [] then 1 else 0)
        else go rest

/-- The 405-fuzz part of the loop: the optional emission and its
found/secrets increments. -/
def fuzzPart (cfg : Config) (net : Network) (det : Detectors)
    (url userAgent : String) (result : Result) : Option (Emission × Nat) :=
  if result.statusCode = 405 ∧ cfg.safeMode = false then
    methodFuzzStep net det url userAgent
  else none

/-- The bypass part of the `isInteresting` branch: the optional emission and
its secrets increment. -/
def bypassPart (cfg : Config) (net : Network) (det : Detectors)
    (url : String) (result : Result) : Option (Emission × Nat) :=
  if cfg.safeMode = false ∧
      (result.statusCode = 403 ∨ result.statusCode = 401) then
    match attemptBypassStrategies net url with
    | none => none
    | some (bres, bbody, bresp) =>
      let bsecrets := det.detectSecrets bbody
      let b1 := { bres with critical := true }
      let b2 :=
        if bsecrets ≠ [] then
          { b1 with secretFound := true, secretTypes := bsecrets }
        else b1
      some (⟨.bypass, det.assignSC b2, bresp⟩,
        if bsecrets ≠ [] then 1 else 0)
  else none

/-- The `isInteresting` branch of the loop (worker.go lines 128–178): secret
and technology decoration, the bypass attempt, the recursion push, and the
primary emission. -/
def interestingPart (cfg : Config) (net : Network) (det : Detectors)
    (url : String) (task : Task) (result : Result) (bodyContent : String)
    (resp : HttpResp) : List Emission × Nat × List Task :=
  let secretsList :=
    if result.statusCode = 200 ∧ bodyContent ≠ "" then
      det.detectSecrets bodyContent
    else []
  let r1 :=
    if secretsList ≠ [] then
      { result with secretFound := true, secretTypes := secretsList }
    else result
  let secretsDelta : Nat := if secretsList ≠ [] then 1 else 0
  let techs := det.detectTechNames resp bodyContent
  let r2 := if techs ≠ [] then { r1 with technologies := techs } else r1
  let bypassOpt := bypassPart cfg net det url result
  let newTasks :=
    if 0 < cfg.maxDepth ∧ task.depth < cfg.maxDepth ∧ isDirectory r2 then
      [{ targetURL := task.targetURL, path := extractPath url
         depth := task.depth + 1 : Task }]
    else []
  ((bypassOpt.map Prod.fst).toList ++ [⟨.primary, det.assignSC r2, resp⟩],
    secretsDelta + ((bypassOpt.map Prod.snd).getD 0),
    newTasks)

/-- One iteration of the worker loop (worker.go lines 48–181) for one task:
the emitted results (in emission order), the stats increments, and the
follow-up tasks pushed to `newTasks`. -/
def processTask (cfg : Config) (net : Network) (det : Detectors)
    (signatures : List ResponseSignature) (userAgent : String) (task : Task) :
    List Emission × StatsDelta × List Task :=
  let url := trimSuffixStr task.targetURL "/" ++ "/" ++
    trimPrefixStr task.path "/"
  match makeRequest net url "GET" userAgent with
  | none => ([], ⟨1, 0, 1, 0⟩, [])
  | some (result, bodyContent, resp) =>
    if matchesSignatureWLC result.statusCode result.size result.wordCount
        result.lineCount signatures then
      ([], ⟨1, 0, 0, 0⟩, [])
    else
      let fuzzOpt := fuzzPart cfg net det url userAgent result
      let fuzzEmits := (fuzzOpt.map Prod.fst).toList
      let fuzzFound : Nat := if fuzzOpt.isSome then 1 else 0
      let fuzzSecrets : Nat := (fuzzOpt.map Prod.snd).getD 0
      if isInteresting result then
        let inter := interestingPart cfg net det url task result bodyContent resp
        (fuzzEmits ++ inter.1,
          ⟨1, fuzzFound + 1, 0, fuzzSecrets + inter.2.1⟩,
          inter.2.2)
      else
        (fuzzEmits, ⟨1, fuzzFound, 0, fuzzSecrets⟩, [])

theorem methodFuzzStep_kind (net : Network) (det : Detectors)
    (url userAgent : String) (p : Emission × Nat)
    (h : methodFuzzStep net det url userAgent = some p) :
    p.1.kind = .methodFuzz := by
  unfold methodFuzzStep at h
  generalize hl : ["POST", "PUT", "DELETE", "PATCH"] = l at h
  clear hl
  induction l with
  | nil => exact absurd h (by simp [methodFuzzStep.go])
  | cons method rest ih =>
    unfold methodFuzzStep.go at h
    cases hmr : makeRequest net url method userAgent with
    | none => rw [hmr] at h; exact ih h
    | some trip =>
      obtain ⟨mres, mbody, mresp⟩ := trip
      rw [hmr] at h
      dsimp only at h
      by_cases hst : mres.statusCode = 200 ∨ mres.statusCode = 201 ∨
          mres.statusCode = 204
      · rw [if_pos hst] at h
        simp only [Option.some.injEq] at h
        rw [← h]
      · rw [if_neg hst] at h
        exact ih h

theorem fuzzPart_kind (cfg : Config) (net : Network) (det : Detectors)
    (url userAgent : String) (result : Result) (p : Emission × Nat)
    (h : fuzzPart cfg net det url userAgent result = some p) :
    p.1.kind = .methodFuzz := by
  unfold fuzzPart at h
  by_cases hc : result.statusCode = 405 ∧ cfg.safeMode = false
  · rw [if_pos hc] at h
    exact methodFuzzStep_kind net det url userAgent p h
  · rw [if_neg hc] at h
    exact absurd h (by simp)

theorem bypassPart_kind (cfg : Config) (net : Network) (det : Detectors)
    (url : String) (result : Result) (p : Emission × Nat)
    (h : bypassPart cfg net det url result = some p) :
    p.1.kind = .bypass := by
  unfold bypassPart at h
  by_cases hc : cfg.safeMode = false ∧
      (result.statusCode = 403 ∨ result.statusCode = 401)
  · rw [if_pos hc] at h
    cases hb : attemptBypassStrategies net url with
    | none => rw [hb] at h; exact absurd h (by simp)
    | some trip =>
      obtain ⟨bres, bbody, bresp⟩ := trip
      rw [hb] at h
      simp only [Option.some.injEq] at h
      rw [← h]
  · rw [if_neg hc] at h
    exact absurd h (by simp)

theorem interestingPart_primary_resp (cfg : Config) (net : Network)
    (det : Detectors) (url : String) (task : Task) (result : Result)
    (bodyContent : String) (resp : HttpResp) :
    ∀ e ∈ (interestingPart cfg net det url task result bodyContent resp).1,
      e.kind = .primary → e.resp = resp := by
  intro e he hk
  unfold interestingPart at he
  simp only [List.mem_append, List.mem_singleton] at he
  rcases he with he | he
  · cases hb : bypassPart cfg net det url result with
    | none => rw [hb] at he; simp at he
    | some p =>
      rw [hb] at he
      simp only [Option.map_some', Option.toList_some, List.mem_singleton] at he
      have := bypassPart_kind cfg net det url result p hb
      rw [he] at hk
      rw [hk] at this
      exact absurd this (by simp)
  · rw [he]

theorem makeRequest_respMatches (net : Network) (url method userAgent : String)
    (signatures : List ResponseSignature) (result : Result)
    (bodyContent : String) (resp : HttpResp)
    (h : makeRequest net url method userAgent = some (result, bodyContent, resp)) :
    matchesSignatureWLC result.statusCode result.size result.wordCount
        result.lineCount signatures = respMatches signatures resp := by
  unfold makeRequest at h
  cases hn : net { url := url, method := method, headers := [] } with
  | none => rw [hn] at h; exact absurd h (by simp)
  | some resp' =>
    rw [hn] at h
    simp only [Option.some.injEq, Prod.mk.injEq] at h
    obtain ⟨hres, _, hresp⟩ := h
    subst hresp
    rw [← hres]
    rfl

/-- **C4 (amended).** Every *primary* Result emitted by the worker comes
from a response that does not match any calibration signature of the task's
target: the worker checks the GET response against the calibration entry
before the branch that emits it.  (Method-fuzz and bypass Results are built
from *other* responses that are never checked — see the counterexample.) -/
theorem claim_C4_primary_never_matches (cfg : Config) (net : Network)
    (det : Detectors) (signatures : List ResponseSignature)
    (userAgent : String) (task : Task) :
    ∀ e ∈ (processTask cfg net det signatures userAgent task).1,
      e.kind = .primary → respMatches signatures e.resp = false := by
  intro e he hk
  unfold processTask at he
  dsimp only at he
  cases hmr : makeRequest net
      (trimSuffixStr task.targetURL "/" ++ "/" ++ trimPrefixStr task.path "/")
      "GET" userAgent with
  | none => rw [hmr] at he; simp at he
  | some trip =>
    obtain ⟨result, bodyContent, resp⟩ := trip
    rw [hmr] at he
    dsimp only at he
    by_cases hsig : matchesSignatureWLC result.statusCode result.size
        result.wordCount result.lineCount signatures = true
    · rw [if_pos hsig] at he; simp at he
    · rw [if_neg hsig] at he
      by_cases hint : isInteresting result = true
      · rw [if_pos hint] at he
        simp only [List.mem_append] at he
        rcases he with he | he
        · cases hf : fuzzPart cfg net det
              (trimSuffixStr task.targetURL "/" ++ "/" ++
                trimPrefixStr task.path "/") userAgent result with
          | none => rw [hf] at he; simp at he
          | some p =>
            rw [hf] at he
            simp only [Option.map_some', Option.toList_some,
              List.mem_singleton] at he
            have := fuzzPart_kind cfg net det _ userAgent result p hf
            rw [he] at hk
            rw [hk] at this
            exact absurd this (by simp)
        · have hre := interestingPart_primary_resp cfg net det _ task result
            bodyContent resp e he hk
          rw [hre]
          rw [← makeRequest_respMatches net _ "GET" userAgent signatures
            result bodyContent resp hmr]
          exact Bool.not_eq_true _ ▸ (Bool.of_not_eq_true hsig)
      · rw [if_neg hint] at he
        cases hf : fuzzPart cfg net det
            (trimSuffixStr task.targetURL "/" ++ "/" ++
              trimPrefixStr task.path "/") userAgent result with
        | none => rw [hf] at he; simp at he
        | some p =>
          rw [hf] at he
          simp only [Option.map_some', Option.toList_some,
            List.mem_singleton] at he
          have := fuzzPart_kind cfg net det _ userAgent result p hf
          rw [he] at hk
          rw [hk] at this
          exact absurd this (by simp)

/-- Witness for C4 (amended): a 200-response worker run emits one primary
Result and its response matches nothing in the (empty) calibration entry. -/
theorem claim_C4_primary_never_matches_witness :
    respMatches [] (⟨200, "hello", "", "", ""⟩ : HttpResp) = false :=
  claim_C4_primary_never_matches ⟨false, 0⟩
    (fun _ => some ⟨200, "hello", "", "", ""⟩) trivialDetectors [] "ua"
    ⟨"http://h", "p", 1⟩
    ⟨.primary,
      { emptyResult with
          url := "http://h/p", statusCode := 200, size := 5, wordCount := 1
          lineCount := 1, method := "GET", userAgent := "ua" },
      ⟨200, "hello", "", "", ""⟩⟩
    (by decide) (by decide)

/-- The network of the C4/C9 counterexamples: a server answering 405 to GET
and 200 (body `x`, one byte) to POST. -/
def fuzz405Net : Network := fun req =>
  if req.method = "GET" then some ⟨405, "xx", "", "", ""⟩
  else if req.method = "POST" then some ⟨200, "x", "", "", ""⟩
  else none

/-- **C4 counterexample.** A method-fuzz Result can be built from a response
that *does* match a calibration signature: with the calibration entry
`(200, 1, 1, 1)`, a GET returning 405 passes the check, and the fuzz POST
response `(200, "x")` — which matches the signature exactly — is emitted
without any calibration check. -/
theorem claim_C4_counterexample :
    ¬ (∀ (cfg : Config) (net : Network) (det : Detectors)
        (signatures : List ResponseSignature) (userAgent : String)
        (task : Task),
        ∀ e ∈ (processTask cfg net det signatures userAgent task).1,
          respMatches signatures e.resp = false) := by
  intro h
  have hmem : (⟨.methodFuzz,
      { emptyResult with
          url := "http://h/p", statusCode := 200, size := 1, wordCount := 1
          lineCount := 1, critical := true, method := "POST"
          userAgent := "ua" },
      ⟨200, "x", "", "", ""⟩⟩ : Emission) ∈
      (processTask ⟨false, 0⟩ fuzz405Net trivialDetectors
        [⟨200, 1, 1, 1⟩] "ua" ⟨"http://h", "p", 1⟩).1 := by
    decide
  have hfalse := h ⟨false, 0⟩ fuzz405Net trivialDetectors
    [⟨200, 1, 1, 1⟩] "ua" ⟨"http://h", "p", 1⟩ _ hmem
  have htrue : respMatches [⟨200, 1, 1, 1⟩]
      (⟨200, "x", "", "", ""⟩ : HttpResp) = true := by
    show MatchesSignature 200 1 [⟨200, 1, 1, 1⟩] = true
    unfold MatchesSignature
    norm_num [goAbs]
  rw [hfalse] at htrue
  exact Bool.false_ne_true htrue

theorem interestingPart_counts (cfg : Config) (net : Network)
    (det : Detectors) (url : String) (task : Task) (result : Result)
    (bodyContent : String) (resp : HttpResp) :
    ((interestingPart cfg net det url task result bodyContent resp).1.countP
        (fun e => decide (e.kind = .primary))) = 1 ∧
    ((interestingPart cfg net det url task result bodyContent resp).1.countP
        (fun e => decide (e.kind = .methodFuzz))) = 0 := by
  unfold interestingPart
  dsimp only
  cases hb : bypassPart cfg net det url result with
  | none => simp
  | some p =>
    have hk := bypassPart_kind cfg net det url result p hb
    constructor <;> simp [List.countP_append, List.countP_cons, hk]

/-- **C9 counterexample.** A successful method-fuzz emission does *not*
leave the `found` counter unchanged: on a 405 GET whose POST fuzz succeeds,
the worker emits one method-fuzz Result and no primary Result, yet `found`
increases by 1 (worker.go line 119 calls `stats.IncrementFound()` inside the
fuzz branch). -/
theorem claim_C9_counterexample :
    ¬ (∀ (cfg : Config) (net : Network) (det : Detectors)
        (signatures : List ResponseSignature) (userAgent : String)
        (task : Task),
        (processTask cfg net det signatures userAgent task).2.1.found =
          (processTask cfg net det signatures userAgent task).1.countP
            (fun e => decide (e.kind = .primary))) := by
  intro h
  have := h ⟨false, 0⟩ fuzz405Net trivialDetectors [] "ua"
    ⟨"http://h", "p", 1⟩
  exact absurd this (by decide)

/-- **C9 (amended).** The `found` counter is incremented once per emitted
method-fuzz Result *and* once in the primary is-interesting branch: for
every task, the found increment equals the number of primary emissions plus
the number of method-fuzz emissions. -/
theorem claim_C9_found_counts (cfg : Config) (net : Network)
    (det : Detectors) (signatures : List ResponseSignature)
    (userAgent : String) (task : Task) :
    (processTask cfg net det signatures userAgent task).2.1.found =
      (processTask cfg net det signatures userAgent task).1.countP
        (fun e => decide (e.kind = .primary)) +
      (processTask cfg net det signatures userAgent task).1.countP
        (fun e => decide (e.kind = .methodFuzz)) := by
  unfold processTask
  dsimp only
  cases hmr : makeRequest net
      (trimSuffixStr task.targetURL "/" ++ "/" ++ trimPrefixStr task.path "/")
      "GET" userAgent with
  | none => simp
  | some trip =>
    obtain ⟨result, bodyContent, resp⟩ := trip
    dsimp only
    by_cases hsig : matchesSignatureWLC result.statusCode result.size
        result.wordCount result.lineCount signatures = true
    · rw [if_pos hsig]; simp
    · rw [if_neg hsig]
      obtain ⟨hc1, hc2⟩ := interestingPart_counts cfg net det
        (trimSuffixStr task.targetURL "/" ++ "/" ++
          trimPrefixStr task.path "/") task result bodyContent resp
      by_cases hint : isInteresting result = true
      · rw [if_pos hint]
        cases hf : fuzzPart cfg net det
            (trimSuffixStr task.targetURL "/" ++ "/" ++
              trimPrefixStr task.path "/") userAgent result with
        | none => simp [List.countP_append, hc1, hc2]
        | some p =>
          have hk := fuzzPart_kind cfg net det _ userAgent result p hf
          simp [List.countP_append, List.countP_cons, hc1, hc2, hk]
      · rw [if_neg hint]
        cases hf : fuzzPart cfg net det
            (trimSuffixStr task.targetURL "/" ++ "/" ++
              trimPrefixStr task.path "/") userAgent result with
        | none => simp
        | some p =>
          have hk := fuzzPart_kind cfg net det _ userAgent result p hf
          simp [List.countP_cons, hk]

/-! ## The engine task graph (`internal/scanner/engine.go`)

The task-depth claims concern which tasks can ever enter the two channels.
The engine is modelled as a transition system over the channel contents and
the recursion-dedup map; each constructor mirrors one code site that moves a
task: the seeder (engine.go lines 171–191), a worker finishing a task, a
worker pushing a follow-up directory task (worker.go lines 162–174), and the
recursion consumer dropping or fanning out a `newTask` (engine.go lines
94–147).  Channel contents are lists; order is irrelevant to the claims. -/

/-- The interleaved state of the two task channels and the dedup map. -/
structure EngState where
  tasks    : List Task
  newTasks : List Task
  scanned  : List (String × String)
  deriving Repr, DecidableEq

/-- The fan-out of the recursion consumer for one `newTask`: one task per
word, plus one per word×extension, all at the new task's depth. -/
def fanoutTasks (words exts : List String) (nt : Task) : List Task :=
  words.flatMap (fun word =>
    (⟨nt.targetURL, trimSuffixStr nt.path "/" ++ "/" ++ word, nt.depth⟩ :
        Task) ::
      exts.map (fun ext =>
        ⟨nt.targetURL, trimSuffixStr nt.path "/" ++ "/" ++ word ++ ext,
          nt.depth⟩))

/-- One engine transition. -/
inductive EngStep (cfg : Config) (targets words exts : List String) :
    EngState → EngState → Prop
  | seedWord (s : EngState) (target word : String)
      (ht : target ∈ targets) (hw : word ∈ words) :
      EngStep cfg targets words exts s
        { s with tasks := s.tasks ++ [⟨target, word, 1⟩] }
  | seedExt (s : EngState) (target word ext : String)
      (ht : target ∈ targets) (hw : word ∈ words) (he : ext ∈ exts) :
      EngStep cfg targets words exts s
        { s with tasks := s.tasks ++ [⟨target, word ++ ext, 1⟩] }
  | workerFinish (s : EngState) (t : Task) (ht : t ∈ s.tasks) :
      EngStep cfg targets words exts s
        { s with tasks := s.tasks.erase t }
  | workerPush (s : EngState) (t : Task) (ht : t ∈ s.tasks)
      (hd : 0 < cfg.maxDepth ∧ t.depth < cfg.maxDepth) :
      EngStep cfg targets words exts s
        { s with
            tasks := s.tasks.erase t
            newTasks := s.newTasks ++
              [⟨t.targetURL,
                extractPath (trimSuffixStr t.targetURL "/" ++ "/" ++
                  trimPrefixStr t.path "/"),
                t.depth + 1⟩] }
  | recurseDrop (s : EngState) (nt : Task) (hnt : nt ∈ s.newTasks) :
      EngStep cfg targets words exts s
        { s with newTasks := s.newTasks.erase nt }
  | recurseFanout (s : EngState) (nt : Task) (hnt : nt ∈ s.newTasks)
      (hdepth : nt.depth ≤ cfg.maxDepth)
      (hfresh : (nt.targetURL, nt.path) ∉ s.scanned) :
      EngStep cfg targets words exts s
        { tasks := s.tasks ++ fanoutTasks words exts nt
          newTasks := s.newTasks.erase nt
          scanned := (nt.targetURL, nt.path) :: s.scanned }

/-- A state the engine can reach from empty channels. -/
def EngReachable (cfg : Config) (targets words exts : List String)
    (s : EngState) : Prop :=
  Relation.ReflTransGen (EngStep cfg targets words exts) ⟨[], [], []⟩ s

theorem fanoutTasks_depth (words exts : List String) (nt : Task) :
    ∀ t ∈ fanoutTasks words exts nt, t.depth = nt.depth := by
  intro t ht
  simp only [fanoutTasks, List.mem_flatMap, List.mem_cons, List.mem_map] at ht
  obtain ⟨word, _, ht⟩ := ht
  rcases ht with rfl | ⟨ext, _, rfl⟩ <;> rfl

/-- **C10.** Every task that enters the task queue has depth at least 1, and
when recursion is enabled (`maxDepth > 0`) no queued task exceeds
`maxDepth`; every task in the recursion channel has depth between 2 and
`maxDepth`.  (Seeds carry depth 1; a worker pushes only when the current
depth is strictly below `maxDepth`, at depth + 1; the recursion consumer
fans out only at depth ≤ `maxDepth`, at the pushed depth — each of these is
a side condition of the corresponding `EngStep` constructor.) -/
theorem claim_C10_depth_invariant (cfg : Config)
    (targets words exts : List String) (s : EngState)
    (hreach : EngReachable cfg targets words exts s) :
    (∀ t ∈ s.tasks, 1 ≤ t.depth ∧ (0 < cfg.maxDepth → t.depth ≤ cfg.maxDepth)) ∧
    (∀ nt ∈ s.newTasks, 2 ≤ nt.depth ∧ nt.depth ≤ cfg.maxDepth) := by
  induction hreach with
  | refl => exact ⟨by simp, by simp⟩
  | tail _ hstep ih =>
    obtain ⟨ihT, ihN⟩ := ih
    cases hstep with
    | seedWord target word ht hw =>
      refine ⟨?_, ihN⟩
      intro t htm
      rcases List.mem_append.mp htm with hm | hm
      · exact ihT t hm
      · rw [List.mem_singleton.mp hm]
        exact ⟨le_refl 1, fun h => h⟩
    | seedExt target word ext ht hw he =>
      refine ⟨?_, ihN⟩
      intro t htm
      rcases List.mem_append.mp htm with hm | hm
      · exact ihT t hm
      · rw [List.mem_singleton.mp hm]
        exact ⟨le_refl 1, fun h => h⟩
    | workerFinish t ht =>
      exact ⟨fun u hu => ihT u (List.mem_of_mem_erase hu), ihN⟩
    | workerPush t ht hd =>
      refine ⟨fun u hu => ihT u (List.mem_of_mem_erase hu), ?_⟩
      intro nt hnt
      rcases List.mem_append.mp hnt with hm | hm
      · exact ihN nt hm
      · rw [List.mem_singleton.mp hm]
        have h1 := (ihT t ht).1
        refine ⟨?_, ?_⟩ <;> · dsimp only; omega
    | recurseDrop nt hnt =>
      exact ⟨ihT, fun u hu => ihN u (List.mem_of_mem_erase hu)⟩
    | recurseFanout nt hnt hdepth hfresh =>
      refine ⟨?_, fun u hu => ihN u (List.mem_of_mem_erase hu)⟩
      intro t htm
      rcases List.mem_append.mp htm with hm | hm
      · exact ihT t hm
      · have hdeq := fanoutTasks_depth words exts nt t hm
        have h2 := ihN nt hnt
        rw [hdeq]
        exact ⟨by omega, fun _ => h2.2⟩

/-- Witness for C10 at a concrete reachable state: one seeded task at
depth 1. -/
theorem claim_C10_depth_invariant_witness :
    (∀ t ∈ ([⟨"http://t", "w", 1⟩] : List Task),
      1 ≤ t.depth ∧ (0 < (2 : Nat) → t.depth ≤ 2)) ∧
    (∀ nt ∈ ([] : List Task), 2 ≤ nt.depth ∧ nt.depth ≤ 2) :=
  claim_C10_depth_invariant ⟨false, 2⟩ ["http://t"] ["w"] []
    ⟨[⟨"http://t", "w", 1⟩], [], []⟩
    (Relation.ReflTransGen.single
      (EngStep.seedWord ⟨[], [], []⟩ "http://t" "w" (by decide) (by decide)))

end Capsaicin
